import Mathlib

/-
Verification of the card registry, registration state machine, scan router,
startup EEPROM check and web command table of
src/arduino/ESP8266_Access_Control/ESP8266_Access_Control.ino.

The EEPROM-backed card store is modelled as a structure holding the master
identifier (EEPROM bytes 0 to 3), the logical count (EEPROM byte 4) and a
slot function giving the 4-byte identifier stored at cardAddr i = 5 + 4 * i.
Loops over EEPROM cells are modelled as fuel-indexed recursions mirroring the
iteration count of the corresponding C loop.  The startup routine initEEPROM
is additionally modelled at the raw byte level, since it manipulates the whole
EEPROM array.  Timestamps are natural numbers; the unsigned 32-bit subtraction
performed by millis() - regModeStarted is modelled explicitly modulo 2^32.
-/

-- Settings (ESP8266_Access_Control.ino lines 22 to 27)
def MAX_CARDS : Nat := 50
def REG_MODE_TIMEOUT_MS : Nat := 15000
def EEPROM_SIZE : Nat := 512

-- DFPlayer audio file indices (lines 31 to 57)
def AUDIO_BEEP_FAIL : Nat := 1
def AUDIO_CUSTOMER : Nat := 2
def AUDIO_ADMIN_1 : Nat := 3
def AUDIO_ADMIN_2 : Nat := 4
def AUDIO_ADMIN_3 : Nat := 5
def AUDIO_ADMIN_4 : Nat := 6
def AUDIO_ADMIN_5 : Nat := 7
def AUDIO_ADMIN_6 : Nat := 8
def AUDIO_BEEP_OK : Nat := 9
def AUDIO_BOSS : Nat := 10
def AUDIO_ATTENDANCE : Nat := 11
def AUDIO_FAILURE : Nat := 12
def AUDIO_ADMIN_1_CLOCKIN : Nat := 13
def AUDIO_ADMIN_2_CLOCKIN : Nat := 14
def AUDIO_ADMIN_3_CLOCKIN : Nat := 15
def AUDIO_ADMIN_4_CLOCKIN : Nat := 16
def AUDIO_MASTER : Nat := 17
def AUDIO_REGISTER : Nat := 18
def AUDIO_ADMIN_1_CLOCKOUT : Nat := 19
def AUDIO_ADMIN_2_CLOCKOUT : Nat := 20
def AUDIO_ADMIN_3_CLOCKOUT : Nat := 21
def AUDIO_ADMIN_4_CLOCKOUT : Nat := 22

/-- The list of all audio cue indices defined by the sketch. -/
def audioCueIds : List Nat :=
  [AUDIO_BEEP_FAIL, AUDIO_CUSTOMER, AUDIO_ADMIN_1, AUDIO_ADMIN_2, AUDIO_ADMIN_3,
   AUDIO_ADMIN_4, AUDIO_ADMIN_5, AUDIO_ADMIN_6, AUDIO_BEEP_OK, AUDIO_BOSS,
   AUDIO_ATTENDANCE, AUDIO_FAILURE, AUDIO_ADMIN_1_CLOCKIN, AUDIO_ADMIN_2_CLOCKIN,
   AUDIO_ADMIN_3_CLOCKIN, AUDIO_ADMIN_4_CLOCKIN, AUDIO_MASTER, AUDIO_REGISTER,
   AUDIO_ADMIN_1_CLOCKOUT, AUDIO_ADMIN_2_CLOCKOUT, AUDIO_ADMIN_3_CLOCKOUT,
   AUDIO_ADMIN_4_CLOCKOUT]

/-- A 4-byte RFID card identifier (byte uid[4] in the sketch). -/
structure UID where
  b0 : Nat
  b1 : Nat
  b2 : Nat
  b3 : Nat
deriving DecidableEq, Repr

/-- compareUID (lines 443 to 446): byte-for-byte equality of two identifiers. -/
def compareUID (a b : UID) : Bool :=
  (a.b0 == b.b0) && (a.b1 == b.b1) && (a.b2 == b.b2) && (a.b3 == b.b3)

/-- isUIDEmpty (lines 448 to 451): returns false as soon as one byte differs
from both 0xFF and 0x00, true otherwise. -/
def isUIDEmpty (u : UID) : Bool :=
  (u.b0 == 255 || u.b0 == 0) && (u.b1 == 255 || u.b1 == 0) &&
  (u.b2 == 255 || u.b2 == 0) && (u.b3 == 255 || u.b3 == 0)

/-- The all-0xFF identifier, written into vacated slots by removeCardAtIndex. -/
def emptyFF : UID := ⟨255, 255, 255, 255⟩

/-- The persistent card store: master identifier (EEPROM bytes 0 to 3),
logical count (EEPROM byte 4) and the identifier stored in each card slot
(4 bytes starting at cardAddr i). -/
structure Store where
  master : UID
  count : Nat
  slots : Nat → UID

/-- The authorized list as read by the sketch: the identifiers of the first
count slots, in slot order. -/
def cards (s : Store) : List UID :=
  (List.range s.count).map s.slots

/-- writeMasterUID (lines 457 to 460): writes the 4 identifier bytes into
EEPROM bytes 0 to 3, unconditionally. -/
def writeMasterUID (s : Store) (uid : UID) : Store :=
  { s with master := uid }

/-- isAuthorized (lines 475 to 484): linear scan of the first count slots for
a byte-for-byte match. -/
def isAuthorized (s : Store) (uid : UID) : Bool :=
  (List.range s.count).any (fun i => compareUID uid (s.slots i))

/-- addCard (lines 486 to 496): returns unchanged when count has reached
MAX_CARDS, otherwise writes the identifier into slot count and increments the
count byte. -/
def addCard (s : Store) (uid : UID) : Store :=
  if s.count ≥ MAX_CARDS then s
  else { s with slots := Function.update s.slots s.count uid, count := s.count + 1 }

/-- The shifting loop of removeCardAtIndex (lines 501 to 507): starting at
slot i, for k iterations, copies slot i+1 into slot i and advances.  The fuel
k is the iteration count (cnt - 1) - idx of the C loop. -/
def shiftK : (Nat → UID) → Nat → Nat → (Nat → UID)
  | f, _, 0 => f
  | f, i, k + 1 => shiftK (Function.update f i (f (i + 1))) (i + 1) k

/-- removeCardAtIndex (lines 498 to 512): returns unchanged when idx is not
below count; otherwise shifts every later slot down by one, writes 0xFF bytes
into slot count - 1 and decrements the count byte. -/
def removeCardAtIndex (s : Store) (idx : Nat) : Store :=
  if idx ≥ s.count then s
  else
    { s with
      slots := Function.update (shiftK s.slots idx (s.count - 1 - idx)) (s.count - 1) emptyFF,
      count := s.count - 1 }

/-- toggleAuthorizedCard (lines 514 to 529): scans the slots in order for the
identifier; on the first match removes that slot, otherwise appends via
addCard. -/
def toggleAuthorizedCard (s : Store) (uid : UID) : Store :=
  match (List.range s.count).find? (fun i => compareUID uid (s.slots i)) with
  | some i => removeCardAtIndex s i
  | none => addCard s uid

-- ---------------- Raw EEPROM model for initEEPROM ----------------

/-- cardAddr (lines 471 to 473): EEPROM address of the i-th card slot. -/
def cardAddr (index : Nat) : Nat := 5 + index * 4

/-- The wiping loop of initEEPROM (line 406): starting at byte i, for k
iterations, writes 0xFF and advances. -/
def fillFF : (Nat → Nat) → Nat → Nat → (Nat → Nat)
  | e, _, 0 => e
  | e, i, k + 1 => fillFF (Function.update e i 255) (i + 1) k

/-- initEEPROM (lines 402 to 411): if the count byte exceeds MAX_CARDS, every
one of the EEPROM_SIZE bytes is overwritten with 0xFF and then the count byte
is set to 0; otherwise the EEPROM is left untouched. -/
def initEEPROM (e : Nat → Nat) : Nat → Nat :=
  if e 4 > MAX_CARDS then Function.update (fillFF e 0 EEPROM_SIZE) 4 0 else e

/-- readMasterUID (lines 453 to 455) on the raw byte model. -/
def masterBytes (e : Nat → Nat) : UID := ⟨e 0, e 1, e 2, e 3⟩

/-- readCount (lines 462 to 464) on the raw byte model. -/
def countByte (e : Nat → Nat) : Nat := e 4

/-- The 4 bytes of the i-th card slot on the raw byte model. -/
def slotBytes (e : Nat → Nat) (i : Nat) : UID :=
  ⟨e (cardAddr i), e (cardAddr i + 1), e (cardAddr i + 2), e (cardAddr i + 3)⟩

-- ---------------- Scan router (the card branch of loop) ----------------

/-- The outcome of processing one scan, identified by the audio/relay actions
the sketch performs on each branch of loop (lines 366 to 398).  registryFull
is the silent branch where addCard refuses at capacity. -/
inductive Outcome where
  | becameMaster
  | regArmed
  | regCancelled
  | memberAdded
  | memberRemoved
  | registryFull
  | accessGranted
  | accessDenied
deriving DecidableEq, Repr

/-- The state owned by the control loop: the store plus the registration
mode flag and its start timestamp (lines 63 to 64). -/
structure Machine where
  store : Store
  regMode : Bool
  regModeStarted : Nat

/-- Unsigned 32-bit subtraction, as computed by millis() - regModeStarted on
unsigned long values (line 395). -/
def ulSub (a b : Nat) : Nat :=
  (a % 4294967296 + 4294967296 - b % 4294967296) % 4294967296

/-- One scan-processing pass of loop (lines 357 to 398), given the freshly
read identifier and the current millis() value: if no master is stored the
card becomes master (return before the timeout check); a master scan toggles
registration mode via handleMasterScan (lines 413 to 424, return before the
timeout check); otherwise the card is routed through registration toggle or
access check, after which the registration timeout is resolved (line 395). -/
def scanStep (m : Machine) (uid : UID) (now : Nat) : Machine × Outcome :=
  if isUIDEmpty m.store.master then
    ({ m with store := writeMasterUID m.store uid }, Outcome.becameMaster)
  else if compareUID uid m.store.master then
    if !m.regMode then
      ({ m with regMode := true, regModeStarted := now }, Outcome.regArmed)
    else
      ({ m with regMode := false }, Outcome.regCancelled)
  else
    let p :=
      if m.regMode then
        (toggleAuthorizedCard m.store uid,
         if isAuthorized m.store uid then Outcome.memberRemoved
         else if m.store.count ≥ MAX_CARDS then Outcome.registryFull
         else Outcome.memberAdded)
      else
        (m.store,
         if isAuthorized m.store uid then Outcome.accessGranted else Outcome.accessDenied)
    let rm := if m.regMode ∧ REG_MODE_TIMEOUT_MS < ulSub now m.regModeStarted
              then false else m.regMode
    ({ store := p.1, regMode := rm, regModeStarted := m.regModeStarted }, p.2)

/-- The machine state after a first boot: the EEPROM count byte of blank
flash (0xFF) exceeds MAX_CARDS, so initEEPROM wipes the store to all-0xFF
bytes with count 0; regMode starts false (line 63). -/
def initialMachine : Machine :=
  { store := { master := emptyFF, count := 0, slots := fun _ => emptyFF },
    regMode := false,
    regModeStarted := 0 }

/-- Machine states reachable from a first boot by processing scans. -/
inductive Reachable : Machine → Prop
  | init : Reachable initialMachine
  | step (m : Machine) (uid : UID) (now : Nat) :
      Reachable m → Reachable (scanStep m uid now).1

-- ---------------- Web command table ----------------

/-- The command routes registered in setup (lines 303 to 339) that go through
handleCommand: route name, audio index played, and whether the relay is
triggered.  The root page route and the reboot route are separate handlers
that do not dispatch a command; any other name falls to handleNotFound
(lines 270 to 272), which performs no audio and no relay action. -/
def commandRoutes : List (String × Nat × Bool) :=
  [("/customer", AUDIO_CUSTOMER, false),
   ("/admin1", AUDIO_ADMIN_1, true),
   ("/admin2", AUDIO_ADMIN_2, true),
   ("/admin3", AUDIO_ADMIN_3, true),
   ("/admin4", AUDIO_ADMIN_4, true),
   ("/admin5", AUDIO_ADMIN_5, true),
   ("/admin6", AUDIO_ADMIN_6, true),
   ("/boss", AUDIO_BOSS, true),
   ("/attendance", AUDIO_ATTENDANCE, false),
   ("/admin1_clockin", AUDIO_ADMIN_1_CLOCKIN, false),
   ("/admin2_clockin", AUDIO_ADMIN_2_CLOCKIN, false),
   ("/admin3_clockin", AUDIO_ADMIN_3_CLOCKIN, false),
   ("/admin4_clockin", AUDIO_ADMIN_4_CLOCKIN, false),
   ("/admin1_clockout", AUDIO_ADMIN_1_CLOCKOUT, false),
   ("/admin2_clockout", AUDIO_ADMIN_2_CLOCKOUT, false),
   ("/admin3_clockout", AUDIO_ADMIN_3_CLOCKOUT, false),
   ("/admin4_clockout", AUDIO_ADMIN_4_CLOCKOUT, false),
   ("/admin1_relay", 0, true),
   ("/admin2_relay", 0, true),
   ("/admin3_relay", 0, true),
   ("/admin4_relay", 0, true),
   ("/admin5_relay", 0, true),
   ("/admin6_relay", 0, true),
   ("/boss_relay", 0, true),
   ("/failure", AUDIO_FAILURE, false),
   ("/beep_ok", AUDIO_BEEP_OK, false),
   ("/beep_fail", AUDIO_BEEP_FAIL, false),
   ("/master", AUDIO_MASTER, false),
   ("/register", AUDIO_REGISTER, false)]

/-- The command names of the registered routes. -/
def commandNames : List String := commandRoutes.map (fun p => p.1)

/-- Dispatching a command name: the first matching registered route, if any. -/
def dispatch (name : String) : Option (Nat × Bool) :=
  List.lookup name commandRoutes

-- ---------------- Helper lemmas ----------------

theorem compareUID_eq_true_iff (a b : UID) : compareUID a b = true ↔ a = b := by
  cases a; cases b
  simp [compareUID, UID.mk.injEq, and_assoc]

theorem compareUID_eq_false_iff (a b : UID) : compareUID a b = false ↔ a ≠ b := by
  rw [Bool.eq_false_iff, Ne, Ne]
  exact not_congr (compareUID_eq_true_iff a b)

theorem shiftK_apply (k : Nat) : ∀ (f : Nat → UID) (i j : Nat),
    shiftK f i k j = if i ≤ j ∧ j < i + k then f (j + 1) else f j := by
  induction k with
  | zero =>
    intro f i j
    rw [shiftK, if_neg]
    omega
  | succ k ih =>
    intro f i j
    rw [shiftK, ih]
    by_cases h1 : i + 1 ≤ j ∧ j < i + 1 + k
    · rw [if_pos h1, if_pos (by omega : i ≤ j ∧ j < i + (k + 1)), Function.update_apply,
        if_neg (by omega : ¬ j + 1 = i)]
    · rw [if_neg h1, Function.update_apply]
      by_cases h2 : j = i
      · rw [if_pos h2, if_pos (by omega : i ≤ j ∧ j < i + (k + 1)), h2]
      · rw [if_neg h2, if_neg (by omega : ¬ (i ≤ j ∧ j < i + (k + 1)))]

theorem fillFF_apply (k : Nat) : ∀ (e : Nat → Nat) (i j : Nat),
    fillFF e i k j = if i ≤ j ∧ j < i + k then 255 else e j := by
  induction k with
  | zero =>
    intro e i j
    rw [fillFF, if_neg]
    omega
  | succ k ih =>
    intro e i j
    rw [fillFF, ih]
    by_cases h1 : i + 1 ≤ j ∧ j < i + 1 + k
    · rw [if_pos h1, if_pos (by omega : i ≤ j ∧ j < i + (k + 1))]
    · rw [if_neg h1, Function.update_apply]
      by_cases h2 : j = i
      · rw [if_pos h2, if_pos (by omega : i ≤ j ∧ j < i + (k + 1))]
      · rw [if_neg h2, if_neg (by omega : ¬ (i ≤ j ∧ j < i + (k + 1)))]

theorem removeCard_master (s : Store) (idx : Nat) :
    (removeCardAtIndex s idx).master = s.master := by
  rw [removeCardAtIndex]
  split <;> rfl

theorem removeCard_count (s : Store) (idx : Nat) (h : idx < s.count) :
    (removeCardAtIndex s idx).count = s.count - 1 := by
  rw [removeCardAtIndex, if_neg (by omega : ¬ idx ≥ s.count)]

theorem removeCard_slots (s : Store) (idx : Nat) (h : idx < s.count) (j : Nat) :
    (removeCardAtIndex s idx).slots j =
      if j = s.count - 1 then emptyFF
      else if idx ≤ j ∧ j < s.count - 1 then s.slots (j + 1)
      else s.slots j := by
  rw [removeCardAtIndex, if_neg (by omega : ¬ idx ≥ s.count)]
  show Function.update (shiftK s.slots idx (s.count - 1 - idx)) (s.count - 1) emptyFF j = _
  rw [Function.update_apply, shiftK_apply]
  have hik : idx + (s.count - 1 - idx) = s.count - 1 := by omega
  rw [hik]

theorem addCard_master (s : Store) (uid : UID) : (addCard s uid).master = s.master := by
  rw [addCard]
  split <;> rfl

theorem addCard_of_full (s : Store) (uid : UID) (h : s.count ≥ MAX_CARDS) :
    addCard s uid = s := by
  rw [addCard, if_pos h]

theorem addCard_count (s : Store) (uid : UID) (h : s.count < MAX_CARDS) :
    (addCard s uid).count = s.count + 1 := by
  rw [addCard, if_neg (by omega : ¬ s.count ≥ MAX_CARDS)]

theorem addCard_slots (s : Store) (uid : UID) (h : s.count < MAX_CARDS) (j : Nat) :
    (addCard s uid).slots j = if j = s.count then uid else s.slots j := by
  rw [addCard, if_neg (by omega : ¬ s.count ≥ MAX_CARDS)]
  show Function.update s.slots s.count uid j = _
  rw [Function.update_apply]

theorem isAuthorized_true_iff (s : Store) (uid : UID) :
    isAuthorized s uid = true ↔ ∃ i, i < s.count ∧ s.slots i = uid := by
  rw [isAuthorized, List.any_eq_true]
  constructor
  · rintro ⟨i, hi, hp⟩
    exact ⟨i, List.mem_range.1 hi, ((compareUID_eq_true_iff _ _).1 hp).symm⟩
  · rintro ⟨i, hi, hp⟩
    exact ⟨i, List.mem_range.2 hi, (compareUID_eq_true_iff _ _).2 hp.symm⟩

theorem isAuthorized_false_iff (s : Store) (uid : UID) :
    isAuthorized s uid = false ↔ ∀ i, i < s.count → s.slots i ≠ uid := by
  rw [Bool.eq_false_iff, Ne, isAuthorized_true_iff]
  push_neg
  constructor
  · intro h i hi
    exact h i hi
  · intro h i hi
    exact h i hi

theorem mem_cards_iff (s : Store) (v : UID) :
    v ∈ cards s ↔ ∃ i, i < s.count ∧ s.slots i = v := by
  rw [cards, List.mem_map]
  constructor
  · rintro ⟨i, hi, hp⟩
    exact ⟨i, List.mem_range.1 hi, hp⟩
  · rintro ⟨i, hi, hp⟩
    exact ⟨i, List.mem_range.2 hi, hp⟩

theorem cards_length (s : Store) : (cards s).length = s.count := by
  rw [cards, List.length_map, List.length_range]

theorem cards_nodup_iff (s : Store) :
    (cards s).Nodup ↔ ∀ i j, i < s.count → j < s.count → s.slots i = s.slots j → i = j := by
  rw [cards, List.nodup_map_iff_inj_on (List.nodup_range s.count)]
  constructor
  · intro h i j hi hj he
    exact h i (List.mem_range.2 hi) j (List.mem_range.2 hj) he
  · intro h i hi j hj he
    exact h i j (List.mem_range.1 hi) (List.mem_range.1 hj) he

theorem find?_range_eq_none_iff (n : Nat) (p : Nat → Bool) :
    (List.range n).find? p = none ↔ ∀ i, i < n → p i = false := by
  rw [List.find?_eq_none]
  constructor
  · intro h i hi
    exact Bool.eq_false_iff.2 (h i (List.mem_range.2 hi))
  · intro h i hi
    exact Bool.eq_false_iff.1 (h i (List.mem_range.1 hi))

theorem find?_append_of_none {α : Type} (p : α → Bool) (l1 l2 : List α)
    (h : l1.find? p = none) : (l1 ++ l2).find? p = l2.find? p := by
  induction l1 with
  | nil => rfl
  | cons a t ih =>
    have ha : ¬ p a = true := by
      intro hpa
      rw [List.find?_cons_of_pos t hpa] at h
      exact Option.some_ne_none a h
    have ht : t.find? p = none := by
      rw [List.find?_cons_of_neg t ha] at h
      exact h
    rw [List.cons_append, List.find?_cons_of_neg _ ha]
    exact ih ht

theorem find?_range_succ_last (n : Nat) (p : Nat → Bool)
    (h : ∀ i, i < n → p i = false) (hp : p n = true) :
    (List.range (n + 1)).find? p = some n := by
  rw [List.range_succ, find?_append_of_none p _ _ ((find?_range_eq_none_iff n p).2 h)]
  exact List.find?_cons_of_pos [] hp

theorem find?_range_some (n : Nat) (p : Nat → Bool) (i : Nat)
    (h : (List.range n).find? p = some i) : i < n ∧ p i = true :=
  ⟨List.mem_range.1 (List.mem_of_find?_eq_some h), List.find?_some h⟩

theorem toggle_of_find?_some (s : Store) (uid : UID) (i : Nat)
    (h : (List.range s.count).find? (fun i => compareUID uid (s.slots i)) = some i) :
    toggleAuthorizedCard s uid = removeCardAtIndex s i := by
  rw [toggleAuthorizedCard, h]

theorem toggle_of_find?_none (s : Store) (uid : UID)
    (h : (List.range s.count).find? (fun i => compareUID uid (s.slots i)) = none) :
    toggleAuthorizedCard s uid = addCard s uid := by
  rw [toggleAuthorizedCard, h]

theorem toggle_of_not_authorized (s : Store) (uid : UID)
    (h : isAuthorized s uid = false) :
    toggleAuthorizedCard s uid = addCard s uid := by
  apply toggle_of_find?_none
  rw [find?_range_eq_none_iff]
  intro i hi
  exact (compareUID_eq_false_iff _ _).2
    (fun he => (isAuthorized_false_iff s uid).1 h i hi he.symm)

theorem toggle_master (s : Store) (uid : UID) :
    (toggleAuthorizedCard s uid).master = s.master := by
  rw [toggleAuthorizedCard]
  cases hf : (List.range s.count).find? (fun i => compareUID uid (s.slots i)) with
  | none => exact addCard_master s uid
  | some i => exact removeCard_master s i

theorem removeCard_mem_iff (s : Store) (idx : Nat) (h : idx < s.count) (v : UID) :
    (∃ j, j < (removeCardAtIndex s idx).count ∧ (removeCardAtIndex s idx).slots j = v) ↔
      ∃ i, i < s.count ∧ i ≠ idx ∧ s.slots i = v := by
  rw [removeCard_count s idx h]
  constructor
  · rintro ⟨j, hj, hv⟩
    rw [removeCard_slots s idx h j, if_neg (by omega : ¬ j = s.count - 1)] at hv
    by_cases hc : idx ≤ j ∧ j < s.count - 1
    · rw [if_pos hc] at hv
      exact ⟨j + 1, by omega, by omega, hv⟩
    · rw [if_neg hc] at hv
      exact ⟨j, by omega, by omega, hv⟩
  · rintro ⟨i, hi, hne, hv⟩
    by_cases hc : i < idx
    · refine ⟨i, by omega, ?_⟩
      rw [removeCard_slots s idx h i, if_neg (by omega : ¬ i = s.count - 1),
        if_neg (by omega : ¬ (idx ≤ i ∧ i < s.count - 1))]
      exact hv
    · refine ⟨i - 1, by omega, ?_⟩
      rw [removeCard_slots s idx h (i - 1), if_neg (by omega : ¬ i - 1 = s.count - 1),
        if_pos (by omega : idx ≤ i - 1 ∧ i - 1 < s.count - 1)]
      have : i - 1 + 1 = i := by omega
      rw [this]
      exact hv

theorem addCard_mem_iff (s : Store) (uid : UID) (h : s.count < MAX_CARDS) (v : UID) :
    (∃ j, j < (addCard s uid).count ∧ (addCard s uid).slots j = v) ↔
      (∃ i, i < s.count ∧ s.slots i = v) ∨ v = uid := by
  rw [addCard_count s uid h]
  constructor
  · rintro ⟨j, hj, hv⟩
    rw [addCard_slots s uid h j] at hv
    by_cases hc : j = s.count
    · rw [if_pos hc] at hv
      exact Or.inr hv.symm
    · rw [if_neg hc] at hv
      exact Or.inl ⟨j, by omega, hv⟩
  · rintro (⟨i, hi, hv⟩ | hv)
    · refine ⟨i, by omega, ?_⟩
      rw [addCard_slots s uid h i, if_neg (by omega : ¬ i = s.count)]
      exact hv
    · refine ⟨s.count, by omega, ?_⟩
      rw [addCard_slots s uid h s.count, if_pos rfl]
      exact hv.symm

theorem toggle_toggle_isAuthorized (s : Store) (uid : UID)
    (hnd : ∀ i j, i < s.count → j < s.count → s.slots i = s.slots j → i = j)
    (h50 : s.count ≤ MAX_CARDS) (v : UID) :
    isAuthorized (toggleAuthorizedCard (toggleAuthorizedCard s uid) uid) v =
      isAuthorized s v := by
  cases hf : (List.range s.count).find? (fun i => compareUID uid (s.slots i)) with
  | some i =>
    obtain ⟨hi, hpi⟩ := find?_range_some _ _ _ hf
    have hui : s.slots i = uid := ((compareUID_eq_true_iff _ _).1 hpi).symm
    rw [toggle_of_find?_some s uid i hf]
    have hrem := removeCard_count s i hi
    have hnotauth : isAuthorized (removeCardAtIndex s i) uid = false := by
      rw [isAuthorized_false_iff]
      intro j hj hv
      rw [hrem] at hj
      rw [removeCard_slots s i hi j, if_neg (by omega : ¬ j = s.count - 1)] at hv
      by_cases hc : i ≤ j ∧ j < s.count - 1
      · rw [if_pos hc] at hv
        have := hnd (j + 1) i (by omega) hi (hv.trans hui.symm)
        omega
      · rw [if_neg hc] at hv
        have := hnd j i (by omega) hi (hv.trans hui.symm)
        omega
    rw [toggle_of_not_authorized _ uid hnotauth]
    apply Bool.eq_iff_iff.mpr
    rw [isAuthorized_true_iff, isAuthorized_true_iff]
    have hcnt2 : (removeCardAtIndex s i).count < MAX_CARDS := by
      rw [hrem]; omega
    rw [addCard_mem_iff _ uid hcnt2 v, removeCard_mem_iff s i hi v]
    constructor
    · rintro (⟨j, hj, _, hv⟩ | hv)
      · exact ⟨j, hj, hv⟩
      · exact ⟨i, hi, by rw [hui, ← hv]⟩
    · rintro ⟨j, hj, hv⟩
      by_cases hc : j = i
      · refine Or.inr ?_
        rw [← hv, hc, hui]
      · exact Or.inl ⟨j, hj, hc, hv⟩
  | none =>
    have habs : ∀ j, j < s.count → s.slots j ≠ uid := by
      intro j hj hv
      have := (find?_range_eq_none_iff _ _).1 hf j hj
      rw [(compareUID_eq_true_iff uid (s.slots j)).2 hv.symm] at this
      exact Bool.true_eq_false.mp this
    rw [toggle_of_find?_none s uid hf]
    by_cases hfull : s.count ≥ MAX_CARDS
    · rw [addCard_of_full s uid hfull, toggle_of_find?_none s uid hf,
        addCard_of_full s uid hfull]
    · have hlt : s.count < MAX_CARDS := by omega
      have hcnt1 : (addCard s uid).count = s.count + 1 := addCard_count s uid hlt
      have hfind2 : (List.range (addCard s uid).count).find?
          (fun j => compareUID uid ((addCard s uid).slots j)) = some s.count := by
        rw [hcnt1]
        apply find?_range_succ_last
        · intro j hj
          rw [addCard_slots s uid hlt j, if_neg (by omega : ¬ j = s.count)]
          exact (compareUID_eq_false_iff _ _).2 (fun he => habs j hj he.symm)
        · rw [addCard_slots s uid hlt s.count, if_pos rfl]
          exact (compareUID_eq_true_iff uid uid).2 rfl
      rw [toggle_of_find?_some _ uid s.count hfind2]
      apply Bool.eq_iff_iff.mpr
      rw [isAuthorized_true_iff, isAuthorized_true_iff]
      have hsc : s.count < (addCard s uid).count := by omega
      rw [removeCard_mem_iff _ s.count hsc v]
      constructor
      · rintro ⟨j, hj, hne, hv⟩
        rw [hcnt1] at hj
        rw [addCard_slots s uid hlt j, if_neg hne] at hv
        exact ⟨j, by omega, hv⟩
      · rintro ⟨j, hj, hv⟩
        refine ⟨j, by omega, by omega, ?_⟩
        rw [addCard_slots s uid hlt j, if_neg (by omega : ¬ j = s.count)]
        exact hv

/-- The three store-level conditions of the data model: no duplicates among
the authorized identifiers, at most MAX_CARDS of them, and the master
identifier not among them. -/
def storeInv (s : Store) : Prop :=
  (cards s).Nodup ∧ s.count ≤ MAX_CARDS ∧ s.master ∉ cards s

/-- The inductive invariant of the machine: the store conditions plus the
bookkeeping fact that while no master is stored the authorized list is empty
(cards are only ever added after a master exists). -/
def machInv (m : Machine) : Prop :=
  storeInv m.store ∧ (isUIDEmpty m.store.master = true → m.store.count = 0)

theorem removeCard_storeInv (s : Store) (idx : Nat) (hidx : idx < s.count)
    (hs : storeInv s) : storeInv (removeCardAtIndex s idx) := by
  obtain ⟨hnd, h50, hm⟩ := hs
  rw [cards_nodup_iff] at hnd
  have hcnt := removeCard_count s idx hidx
  refine ⟨?_, ?_, ?_⟩
  · rw [cards_nodup_iff]
    intro j k hj hk he
    rw [hcnt] at hj hk
    rw [removeCard_slots s idx hidx j, if_neg (by omega : ¬ j = s.count - 1),
      removeCard_slots s idx hidx k, if_neg (by omega : ¬ k = s.count - 1)] at he
    by_cases hcj : idx ≤ j ∧ j < s.count - 1 <;> by_cases hck : idx ≤ k ∧ k < s.count - 1
    · rw [if_pos hcj, if_pos hck] at he
      have := hnd (j + 1) (k + 1) (by omega) (by omega) he
      omega
    · rw [if_pos hcj, if_neg hck] at he
      have := hnd (j + 1) k (by omega) (by omega) he
      omega
    · rw [if_neg hcj, if_pos hck] at he
      have := hnd j (k + 1) (by omega) (by omega) he
      omega
    · rw [if_neg hcj, if_neg hck] at he
      exact hnd j k (by omega) (by omega) he
  · rw [hcnt]; omega
  · rw [removeCard_master]
    intro hmem
    rw [mem_cards_iff] at hmem
    obtain ⟨i, hi, hne, hv⟩ := (removeCard_mem_iff s idx hidx s.master).1 hmem
    exact hm ((mem_cards_iff s s.master).2 ⟨i, hi, hv⟩)

theorem addCard_storeInv (s : Store) (uid : UID) (hs : storeInv s)
    (habs : ∀ j, j < s.count → s.slots j ≠ uid) (hne : uid ≠ s.master) :
    storeInv (addCard s uid) := by
  obtain ⟨hnd, h50, hm⟩ := hs
  by_cases hfull : s.count ≥ MAX_CARDS
  · rw [addCard_of_full s uid hfull]
    exact ⟨hnd, h50, hm⟩
  · have hlt : s.count < MAX_CARDS := by omega
    rw [cards_nodup_iff] at hnd
    refine ⟨?_, ?_, ?_⟩
    · rw [cards_nodup_iff]
      intro j k hj hk he
      rw [addCard_count s uid hlt] at hj hk
      rw [addCard_slots s uid hlt j, addCard_slots s uid hlt k] at he
      by_cases hcj : j = s.count <;> by_cases hck : k = s.count
      · omega
      · rw [if_pos hcj, if_neg hck] at he
        exact absurd he.symm (habs k (by omega))
      · rw [if_neg hcj, if_pos hck] at he
        exact absurd he (habs j (by omega))
      · rw [if_neg hcj, if_neg hck] at he
        exact hnd j k (by omega) (by omega) he
    · rw [addCard_count s uid hlt]; omega
    · rw [addCard_master]
      intro hmem
      obtain ⟨j, hj, hv⟩ := (mem_cards_iff _ s.master).1 hmem
      rw [addCard_count s uid hlt] at hj
      rw [addCard_slots s uid hlt j] at hv
      by_cases hcj : j = s.count
      · rw [if_pos hcj] at hv
        exact hne hv
      · rw [if_neg hcj] at hv
        exact hm ((mem_cards_iff s s.master).2 ⟨j, by omega, hv⟩)

theorem toggle_storeInv (s : Store) (uid : UID) (hs : storeInv s)
    (hne : uid ≠ s.master) : storeInv (toggleAuthorizedCard s uid) := by
  cases hf : (List.range s.count).find? (fun i => compareUID uid (s.slots i)) with
  | some i =>
    obtain ⟨hi, _⟩ := find?_range_some _ _ _ hf
    rw [toggle_of_find?_some s uid i hf]
    exact removeCard_storeInv s i hi hs
  | none =>
    rw [toggle_of_find?_none s uid hf]
    apply addCard_storeInv s uid hs _ hne
    intro j hj hv
    have := (find?_range_eq_none_iff _ _).1 hf j hj
    rw [(compareUID_eq_true_iff uid (s.slots j)).2 hv.symm] at this
    exact Bool.true_eq_false.mp this

theorem scanStep_machInv (m : Machine) (uid : UID) (now : Nat)
    (h : machInv m) : machInv (scanStep m uid now).1 := by
  obtain ⟨⟨hnd, h50, hm⟩, haux⟩ := h
  rw [scanStep]
  by_cases h1 : isUIDEmpty m.store.master = true
  · rw [if_pos h1]
    have hc0 : m.store.count = 0 := haux h1
    have hcards : cards m.store = [] := by
      rw [cards, hc0]
      rfl
    refine ⟨⟨?_, ?_, ?_⟩, fun _ => hc0⟩
    · show (cards (writeMasterUID m.store uid)).Nodup
      rw [writeMasterUID, cards, hc0]
      exact List.nodup_nil
    · show (writeMasterUID m.store uid).count ≤ MAX_CARDS
      rw [writeMasterUID]
      show m.store.count ≤ MAX_CARDS
      rw [hc0]
      exact Nat.zero_le _
    · show uid ∉ cards (writeMasterUID m.store uid)
      rw [writeMasterUID, cards, hc0]
      exact List.not_mem_nil uid
  · rw [if_neg h1]
    by_cases h2 : compareUID uid m.store.master = true
    · rw [if_pos h2]
      by_cases h3 : (!m.regMode) = true
      · rw [if_pos h3]
        exact ⟨⟨hnd, h50, hm⟩, haux⟩
      · rw [if_neg h3]
        exact ⟨⟨hnd, h50, hm⟩, haux⟩
    · rw [if_neg h2]
      simp only
      by_cases h3 : m.regMode = true
      · rw [if_pos h3]
        have hne : uid ≠ m.store.master := (compareUID_eq_false_iff _ _).1
          (Bool.eq_false_iff.2 h2)
        have hinv := toggle_storeInv m.store uid ⟨hnd, h50, hm⟩ hne
        refine ⟨hinv, fun hemp => ?_⟩
        rw [toggle_master] at hemp
        exact absurd hemp h1
      · rw [if_neg h3]
        exact ⟨⟨hnd, h50, hm⟩, fun hemp => absurd hemp h1⟩

theorem reachable_machInv (m : Machine) (h : Reachable m) : machInv m := by
  induction h with
  | init =>
    refine ⟨⟨?_, ?_, ?_⟩, fun _ => rfl⟩
    · exact List.nodup_nil
    · exact Nat.zero_le _
    · exact List.not_mem_nil _
  | step m uid now _ ih => exact scanStep_machInv m uid now ih

theorem scanStep_branch3 (m : Machine) (uid : UID) (now : Nat)
    (hmaster : isUIDEmpty m.store.master = false)
    (hnotm : compareUID uid m.store.master = false)
    (hreg : m.regMode = true) :
    scanStep m uid now =
      ({ store := toggleAuthorizedCard m.store uid,
         regMode := if REG_MODE_TIMEOUT_MS < ulSub now m.regModeStarted then false else true,
         regModeStarted := m.regModeStarted },
       if isAuthorized m.store uid then Outcome.memberRemoved
       else if m.store.count ≥ MAX_CARDS then Outcome.registryFull
       else Outcome.memberAdded) := by
  rw [scanStep, if_neg (by rw [hmaster]; exact Bool.false_ne_true),
    if_neg (by rw [hnotm]; exact Bool.false_ne_true)]
  simp only [hreg, if_pos, true_and]

theorem scanStep_branch4 (m : Machine) (uid : UID) (now : Nat)
    (hmaster : isUIDEmpty m.store.master = false)
    (hnotm : compareUID uid m.store.master = false)
    (hreg : m.regMode = false) :
    scanStep m uid now =
      ({ store := m.store, regMode := false, regModeStarted := m.regModeStarted },
       if isAuthorized m.store uid then Outcome.accessGranted
       else Outcome.accessDenied) := by
  rw [scanStep, if_neg (by rw [hmaster]; exact Bool.false_ne_true),
    if_neg (by rw [hnotm]; exact Bool.false_ne_true)]
  simp only [hreg, false_and, if_false, if_neg]
  rfl

theorem scanStep_master_eq (m : Machine) (uid : UID) (now : Nat)
    (h : isUIDEmpty m.store.master = false) :
    (scanStep m uid now).1.store.master = m.store.master := by
  rw [scanStep, if_neg (by rw [h]; exact Bool.false_ne_true)]
  by_cases h2 : compareUID uid m.store.master = true
  · rw [if_pos h2]
    by_cases h3 : (!m.regMode) = true
    · rw [if_pos h3]
    · rw [if_neg h3]
  · rw [if_neg h2]
    simp only
    by_cases h3 : m.regMode = true
    · rw [if_pos h3]
      exact toggle_master m.store uid
    · rw [if_neg h3]

theorem lookup_eq_none_of_forall {α β : Type} [BEq α] [LawfulBEq α]
    (l : List (α × β)) (a : α) (h : ∀ p ∈ l, p.1 ≠ a) : List.lookup a l = none := by
  induction l with
  | nil => rfl
  | cons p t ih =>
    obtain ⟨k, v⟩ := p
    have hk : (a == k) = false :=
      beq_eq_false_iff_ne.mpr (fun he => h (k, v) (List.mem_cons_self _ _) he.symm)
    simp only [List.lookup_cons, hk]
    exact ih (fun q hq => h q (List.mem_cons_of_mem _ hq))

theorem cards_getElem (s : Store) (n : Nat) (h : n < (cards s).length) :
    (cards s)[n] = s.slots n := by
  simp only [cards, List.getElem_map, List.getElem_range]

theorem cards_removeCard (s : Store) (idx : Nat) (h : idx < s.count) :
    cards (removeCardAtIndex s idx) = (cards s).eraseIdx idx := by
  have hlen : (cards (removeCardAtIndex s idx)).length = ((cards s).eraseIdx idx).length := by
    rw [cards_length, removeCard_count s idx h, List.length_eraseIdx, cards_length,
      if_pos h]
  apply List.ext_getElem hlen
  intro n h1 h2
  have hn : n < s.count - 1 := by
    rw [cards_length, removeCard_count s idx h] at h1
    exact h1
  rw [cards_getElem _ n h1, List.getElem_eraseIdx,
    removeCard_slots s idx h n, if_neg (by omega : ¬ n = s.count - 1)]
  by_cases hc : n < idx
  · rw [dif_pos hc, if_neg (by omega : ¬ (idx ≤ n ∧ n < s.count - 1)),
      cards_getElem s n (by rw [cards_length]; omega)]
  · rw [dif_neg hc, if_pos (by omega : idx ≤ n ∧ n < s.count - 1),
      cards_getElem s (n + 1) (by rw [cards_length]; omega)]

-- ---------------- Concrete fixtures used by witnesses ----------------

/-- A store with master 01:02:03:04 and the single authorized card 05:06:07:08. -/
def storeA : Store :=
  { master := ⟨1, 2, 3, 4⟩, count := 1,
    slots := fun i => if i = 0 then ⟨5, 6, 7, 8⟩ else emptyFF }

/-- storeA with registration mode armed at time 0. -/
def machineA : Machine := { store := storeA, regMode := true, regModeStarted := 0 }

/-- A store with two authorized cards. -/
def storeB : Store :=
  { master := ⟨1, 2, 3, 4⟩, count := 2,
    slots := fun i => if i = 0 then ⟨5, 6, 7, 8⟩
             else if i = 1 then ⟨9, 10, 11, 12⟩ else emptyFF }

/-- A store filled to MAX_CARDS members. -/
def storeFull : Store :=
  { master := ⟨1, 2, 3, 4⟩, count := 50, slots := fun _ => ⟨9, 9, 9, 9⟩ }

-- ---------------- Claims ----------------

/-- Claim C1, counterexample: with registration armed at time 0 and an
authorized non-master card scanned at time 15001 (elapsed 15001 ms, beyond the
15000 ms timeout), the sketch still routes the scan as a membership toggle:
the outcome is memberRemoved, not an access check, and the card has actually
been removed from the authorized list.  The timeout at line 395 runs only
after the scan has been routed. -/
theorem timedOutScan_routed_as_toggle :
    machineA.regMode = true ∧
    REG_MODE_TIMEOUT_MS < ulSub 15001 machineA.regModeStarted ∧
    isAuthorized machineA.store ⟨5, 6, 7, 8⟩ = true ∧
    compareUID ⟨5, 6, 7, 8⟩ machineA.store.master = false ∧
    (scanStep machineA ⟨5, 6, 7, 8⟩ 15001).2 = Outcome.memberRemoved ∧
    (scanStep machineA ⟨5, 6, 7, 8⟩ 15001).2 ≠ Outcome.accessGranted ∧
    (scanStep machineA ⟨5, 6, 7, 8⟩ 15001).2 ≠ Outcome.accessDenied ∧
    isAuthorized (scanStep machineA ⟨5, 6, 7, 8⟩ 15001).1.store ⟨5, 6, 7, 8⟩ = false := by
  decide

/-- Claim C1 (amended): if registration mode was armed at time t0 and a scan
of a non-master card arrives at a time now with now - t0 beyond 15000 ms, the
scan itself is still routed as a membership toggle (memberRemoved,
registryFull or memberAdded); the registration state reverts to Idle
immediately after that scan is routed, so the NEXT non-master scan is
processed as a normal access check (AccessGranted or AccessDenied). -/
theorem regTimeout_resolved_after_routing (m : Machine) (uid uid2 : UID)
    (now now2 : Nat)
    (hreg : m.regMode = true)
    (hmaster : isUIDEmpty m.store.master = false)
    (hnotm : compareUID uid m.store.master = false)
    (htime : REG_MODE_TIMEOUT_MS < ulSub now m.regModeStarted)
    (hnotm2 : compareUID uid2 m.store.master = false) :
    ((scanStep m uid now).2 = Outcome.memberRemoved ∨
     (scanStep m uid now).2 = Outcome.registryFull ∨
     (scanStep m uid now).2 = Outcome.memberAdded) ∧
    (scanStep m uid now).1.regMode = false ∧
    ((scanStep (scanStep m uid now).1 uid2 now2).2 = Outcome.accessGranted ∨
     (scanStep (scanStep m uid now).1 uid2 now2).2 = Outcome.accessDenied) := by
  have hb3 := scanStep_branch3 m uid now hmaster hnotm hreg
  have hm1reg : (scanStep m uid now).1.regMode = false := by
    rw [hb3]
    show (if REG_MODE_TIMEOUT_MS < ulSub now m.regModeStarted then false else true) = false
    rw [if_pos htime]
  have hm1master : (scanStep m uid now).1.store.master = m.store.master :=
    scanStep_master_eq m uid now hmaster
  refine ⟨?_, hm1reg, ?_⟩
  · by_cases ha : isAuthorized m.store uid = true
    · left
      rw [hb3]
      show (if isAuthorized m.store uid then Outcome.memberRemoved
            else if m.store.count ≥ MAX_CARDS then Outcome.registryFull
            else Outcome.memberAdded) = Outcome.memberRemoved
      rw [if_pos ha]
    · by_cases hc : m.store.count ≥ MAX_CARDS
      · right; left
        rw [hb3]
        show (if isAuthorized m.store uid then Outcome.memberRemoved
              else if m.store.count ≥ MAX_CARDS then Outcome.registryFull
              else Outcome.memberAdded) = Outcome.registryFull
        rw [if_neg ha, if_pos hc]
      · right; right
        rw [hb3]
        show (if isAuthorized m.store uid then Outcome.memberRemoved
              else if m.store.count ≥ MAX_CARDS then Outcome.registryFull
              else Outcome.memberAdded) = Outcome.memberAdded
        rw [if_neg ha, if_neg hc]
  · have hb4 := scanStep_branch4 (scanStep m uid now).1 uid2 now2
      (by rw [hm1master]; exact hmaster) (by rw [hm1master]; exact hnotm2) hm1reg
    by_cases ha2 : isAuthorized (scanStep m uid now).1.store uid2 = true
    · left
      rw [hb4]
      show (if isAuthorized (scanStep m uid now).1.store uid2 then Outcome.accessGranted
            else Outcome.accessDenied) = Outcome.accessGranted
      rw [if_pos ha2]
    · right
      rw [hb4]
      show (if isAuthorized (scanStep m uid now).1.store uid2 then Outcome.accessGranted
            else Outcome.accessDenied) = Outcome.accessDenied
      rw [if_neg ha2]

/-- Witness for the amended claim C1, instantiated on machineA with the
authorized card 05:06:07:08 scanned at time 15001 and a second scan at
time 15002. -/
theorem regTimeout_resolved_after_routing_witness :
    ((scanStep machineA ⟨5, 6, 7, 8⟩ 15001).2 = Outcome.memberRemoved ∨
     (scanStep machineA ⟨5, 6, 7, 8⟩ 15001).2 = Outcome.registryFull ∨
     (scanStep machineA ⟨5, 6, 7, 8⟩ 15001).2 = Outcome.memberAdded) ∧
    (scanStep machineA ⟨5, 6, 7, 8⟩ 15001).1.regMode = false ∧
    ((scanStep (scanStep machineA ⟨5, 6, 7, 8⟩ 15001).1 ⟨5, 6, 7, 8⟩ 15002).2 =
        Outcome.accessGranted ∨
     (scanStep (scanStep machineA ⟨5, 6, 7, 8⟩ 15001).1 ⟨5, 6, 7, 8⟩ 15002).2 =
        Outcome.accessDenied) :=
  regTimeout_resolved_after_routing machineA ⟨5, 6, 7, 8⟩ ⟨5, 6, 7, 8⟩ 15001 15002
    (by decide) (by decide) (by decide) (by decide) (by decide)

/-- Claim C2, counterexample: with the master already set to the non-sentinel
identifier 01:02:03:04, calling writeMasterUID with 09:09:09:09 does change
the stored master: the function writes unconditionally (the only guard is at
its call site in loop, line 366). -/
theorem writeMasterUID_overwrites_set_master :
    isUIDEmpty storeA.master = false ∧
    (writeMasterUID storeA ⟨9, 9, 9, 9⟩).master = ⟨9, 9, 9, 9⟩ ∧
    (writeMasterUID storeA ⟨9, 9, 9, 9⟩).master ≠ storeA.master := by
  decide

/-- Claim C2 (amended): the write-once guard lives at the call site, not in
writeMasterUID itself: for every machine state whose stored master is set
(not a sentinel), processing any scan through the router leaves the stored
master identifier unchanged, so the master is immutable via the scan flow. -/
theorem scan_flow_preserves_set_master (m : Machine) (uid : UID) (now : Nat)
    (h : isUIDEmpty m.store.master = false) :
    (scanStep m uid now).1.store.master = m.store.master :=
  scanStep_master_eq m uid now h

/-- Witness for the amended claim C2 on machineA. -/
theorem scan_flow_preserves_set_master_witness :
    (scanStep machineA ⟨9, 9, 9, 9⟩ 5).1.store.master = machineA.store.master :=
  scan_flow_preserves_set_master machineA ⟨9, 9, 9, 9⟩ 5 (by decide)

/-- Claim C3 (confirmed): for every store with count n and index idx below n,
removeCardAtIndex deletes the idx-th authorized entry: the resulting
authorized list is the old list with entry idx erased (all later entries
shifted down one position, relative order preserved), the count becomes
n - 1, the vacated trailing slot holds the all-0xFF empty sentinel, and
the master is untouched.  The slot-level closed form states exactly which
identifier every slot holds afterwards. -/
theorem removeCardAtIndex_shifts_and_clears (s : Store) (idx j : Nat)
    (h : idx < s.count) :
    (removeCardAtIndex s idx).count = s.count - 1 ∧
    cards (removeCardAtIndex s idx) = (cards s).eraseIdx idx ∧
    (removeCardAtIndex s idx).slots (s.count - 1) = emptyFF ∧
    (removeCardAtIndex s idx).master = s.master ∧
    (removeCardAtIndex s idx).slots j =
      (if j = s.count - 1 then emptyFF
       else if idx ≤ j ∧ j < s.count - 1 then s.slots (j + 1)
       else s.slots j) := by
  refine ⟨removeCard_count s idx h, cards_removeCard s idx h, ?_,
    removeCard_master s idx, removeCard_slots s idx h j⟩
  rw [removeCard_slots s idx h (s.count - 1), if_pos rfl]

/-- Witness for claim C3: removing index 0 from the two-card storeB. -/
theorem removeCardAtIndex_shifts_and_clears_witness :
    (removeCardAtIndex storeB 0).count = storeB.count - 1 ∧
    cards (removeCardAtIndex storeB 0) = (cards storeB).eraseIdx 0 ∧
    (removeCardAtIndex storeB 0).slots (storeB.count - 1) = emptyFF ∧
    (removeCardAtIndex storeB 0).master = storeB.master ∧
    (removeCardAtIndex storeB 0).slots 0 =
      (if 0 = storeB.count - 1 then emptyFF
       else if 0 ≤ 0 ∧ 0 < storeB.count - 1 then storeB.slots (0 + 1)
       else storeB.slots 0) :=
  removeCardAtIndex_shifts_and_clears storeB 0 0 (by decide)

/-- Claim C4 (confirmed): on any store satisfying the data-model conditions
(no duplicate authorized identifiers, count at most MAX_CARDS), toggling a
non-master non-sentinel card identifier twice in succession via the
registration-mode membership toggle yields a store with exactly the same
membership: every identifier is authorized afterwards exactly when it was
authorized before.  The non-master and non-sentinel hypotheses mirror the
claim; the proof needs only the no-duplicates and capacity conditions. -/
theorem toggle_twice_same_membership (s : Store) (uid v : UID)
    (hnd : (cards s).Nodup) (hcap : s.count ≤ MAX_CARDS)
    ( _hns : isUIDEmpty uid = false) ( _hnm : uid ≠ s.master) :
    isAuthorized (toggleAuthorizedCard (toggleAuthorizedCard s uid) uid) v =
      isAuthorized s v :=
  toggle_toggle_isAuthorized s uid ((cards_nodup_iff s).1 hnd) hcap v

/-- Witness for claim C4 on storeA, toggling its authorized card twice. -/
theorem toggle_twice_same_membership_witness :
    isAuthorized (toggleAuthorizedCard (toggleAuthorizedCard storeA ⟨5, 6, 7, 8⟩)
        ⟨5, 6, 7, 8⟩) ⟨5, 6, 7, 8⟩ =
      isAuthorized storeA ⟨5, 6, 7, 8⟩ :=
  toggle_twice_same_membership storeA ⟨5, 6, 7, 8⟩ ⟨5, 6, 7, 8⟩
    (by decide) (by decide) (by decide) (by decide)

/-- Claim C6 (confirmed): for every machine state reachable from a first boot
whose store satisfies the three conditions (the authorized list has no
duplicates, its length is at most MAX_CARDS, and the master is not a member),
processing any single scan through the router yields a state that satisfies
all three conditions again. -/
theorem scanStep_preserves_store_conditions (m : Machine) (uid : UID) (now : Nat)
    (hr : Reachable m)
    ( _hnd : (cards m.store).Nodup)
    ( _hlen : (cards m.store).length ≤ MAX_CARDS)
    ( _hm : m.store.master ∉ cards m.store) :
    (cards (scanStep m uid now).1.store).Nodup ∧
    (cards (scanStep m uid now).1.store).length ≤ MAX_CARDS ∧
    (scanStep m uid now).1.store.master ∉ cards (scanStep m uid now).1.store := by
  obtain ⟨⟨h1, h2, h3⟩, _⟩ := reachable_machInv _ (Reachable.step m uid now hr)
  exact ⟨h1, by rw [cards_length]; exact h2, h3⟩

/-- Witness for claim C6 on the freshly booted machine. -/
theorem scanStep_preserves_store_conditions_witness :
    (cards (scanStep initialMachine ⟨1, 2, 3, 4⟩ 0).1.store).Nodup ∧
    (cards (scanStep initialMachine ⟨1, 2, 3, 4⟩ 0).1.store).length ≤ MAX_CARDS ∧
    (scanStep initialMachine ⟨1, 2, 3, 4⟩ 0).1.store.master ∉
      cards (scanStep initialMachine ⟨1, 2, 3, 4⟩ 0).1.store :=
  scanStep_preserves_store_conditions initialMachine ⟨1, 2, 3, 4⟩ 0
    Reachable.init (by decide) (by decide) (by decide)

/-- Claim C7 (confirmed): on a store whose count equals MAX_CARDS, addCard
fails and mutates nothing: the returned store is identical, so the count
stays MAX_CARDS, the master is unchanged, and every slot is unchanged. -/
theorem addCard_at_capacity_no_mutation (s : Store) (uid : UID)
    (h : s.count = MAX_CARDS) :
    addCard s uid = s ∧
    (addCard s uid).count = MAX_CARDS ∧
    (addCard s uid).master = s.master ∧
    (addCard s uid).slots = s.slots := by
  have he : addCard s uid = s := addCard_of_full s uid (by omega)
  exact ⟨he, by rw [he, h], by rw [he], by rw [he]⟩

/-- Witness for claim C7 on a store holding 50 cards. -/
theorem addCard_at_capacity_no_mutation_witness :
    addCard storeFull ⟨7, 7, 7, 7⟩ = storeFull ∧
    (addCard storeFull ⟨7, 7, 7, 7⟩).count = MAX_CARDS ∧
    (addCard storeFull ⟨7, 7, 7, 7⟩).master = storeFull.master ∧
    (addCard storeFull ⟨7, 7, 7, 7⟩).slots = storeFull.slots :=
  addCard_at_capacity_no_mutation storeFull ⟨7, 7, 7, 7⟩ (by decide)

/-- Claim C10 (confirmed): for every index at or beyond the current count,
removeCardAtIndex returns without modifying anything: the store is returned
identically, so count, master and every slot are unchanged (a silent no-op,
line 500). -/
theorem removeCardAtIndex_oob_noop (s : Store) (idx : Nat) (h : s.count ≤ idx) :
    removeCardAtIndex s idx = s ∧
    (removeCardAtIndex s idx).count = s.count ∧
    (removeCardAtIndex s idx).master = s.master ∧
    (removeCardAtIndex s idx).slots = s.slots := by
  have he : removeCardAtIndex s idx = s := by
    rw [removeCardAtIndex, if_pos (by omega : idx ≥ s.count)]
  exact ⟨he, by rw [he], by rw [he], by rw [he]⟩

/-- Witness for claim C10: removing index 1 from the one-card storeA. -/
theorem removeCardAtIndex_oob_noop_witness :
    removeCardAtIndex storeA 1 = storeA ∧
    (removeCardAtIndex storeA 1).count = storeA.count ∧
    (removeCardAtIndex storeA 1).master = storeA.master ∧
    (removeCardAtIndex storeA 1).slots = storeA.slots :=
  removeCardAtIndex_oob_noop storeA 1 (by decide)

/-- Claim C5, counterexample: the identifier 00:FF:00:FF mixes 0x00 and 0xFF
bytes, so it equals neither reserved sentinel pattern, yet isUIDEmpty treats
it as empty: the check at lines 448 to 451 is per byte, not per pattern. -/
theorem isUIDEmpty_mixed_pattern_counterexample :
    isUIDEmpty ⟨0, 255, 0, 255⟩ = true ∧
    (⟨0, 255, 0, 255⟩ : UID) ≠ ⟨0, 0, 0, 0⟩ ∧
    (⟨0, 255, 0, 255⟩ : UID) ≠ ⟨255, 255, 255, 255⟩ := by
  decide

/-- Claim C5 (amended): a stored 4-byte identifier is treated as unset/empty
exactly when every one of its four bytes is individually 0x00 or 0xFF.  The
two uniform sentinel patterns are special cases, but mixtures of 0x00 and
0xFF bytes are ALSO treated as empty; only identifiers with at least one byte
outside {0x00, 0xFF} are treated as set. -/
theorem isUIDEmpty_iff_bytes_sentinel (u : UID) :
    isUIDEmpty u = true ↔
      ((u.b0 = 0 ∨ u.b0 = 255) ∧ (u.b1 = 0 ∨ u.b1 = 255) ∧
       (u.b2 = 0 ∨ u.b2 = 255) ∧ (u.b3 = 0 ∨ u.b3 = 255)) := by
  cases u
  simp [isUIDEmpty, and_assoc, or_comm]

/-- Claim C8 (confirmed): at startup, when the stored count byte exceeds
MAX_CARDS, initEEPROM wipes the whole store: the master reads back as the
empty sentinel, the count is 0, and every one of the MAX_CARDS card slots
holds the all-0xFF sentinel; when the stored count is at most MAX_CARDS,
initEEPROM leaves the EEPROM completely unchanged. -/
theorem initEEPROM_corruption_policy (e : Nat → Nat) (i : Nat) :
    (MAX_CARDS < e 4 →
      isUIDEmpty (masterBytes (initEEPROM e)) = true ∧
      countByte (initEEPROM e) = 0 ∧
      (i < MAX_CARDS → slotBytes (initEEPROM e) i = emptyFF)) ∧
    (e 4 ≤ MAX_CARDS → initEEPROM e = e) := by
  constructor
  · intro hcorr
    have happ : ∀ j, initEEPROM e j =
        if j = 4 then 0 else if j < EEPROM_SIZE then 255 else e j := by
      intro j
      rw [initEEPROM, if_pos hcorr, Function.update_apply, fillFF_apply]
      by_cases hj : j = 4
      · rw [if_pos hj, if_pos hj]
      · rw [if_neg hj, if_neg hj]
        by_cases hlt : j < EEPROM_SIZE
        · rw [if_pos (by omega : 0 ≤ j ∧ j < 0 + EEPROM_SIZE), if_pos hlt]
        · rw [if_neg (by omega : ¬ (0 ≤ j ∧ j < 0 + EEPROM_SIZE)), if_neg hlt]
    have hval : ∀ j, j ≠ 4 → j < EEPROM_SIZE → initEEPROM e j = 255 := by
      intro j hj hlt
      rw [happ j, if_neg hj, if_pos hlt]
    refine ⟨?_, ?_, fun hi => ?_⟩
    · rw [masterBytes, hval 0 (by omega) (by decide), hval 1 (by omega) (by decide),
        hval 2 (by omega) (by decide), hval 3 (by omega) (by decide)]
      decide
    · rw [countByte, happ 4, if_pos rfl]
    · have hi50 : i < 50 := hi
      rw [slotBytes,
        hval (cardAddr i) (by simp only [cardAddr]; omega)
          (by simp only [cardAddr, EEPROM_SIZE]; omega),
        hval (cardAddr i + 1) (by simp only [cardAddr]; omega)
          (by simp only [cardAddr, EEPROM_SIZE]; omega),
        hval (cardAddr i + 2) (by simp only [cardAddr]; omega)
          (by simp only [cardAddr, EEPROM_SIZE]; omega),
        hval (cardAddr i + 3) (by simp only [cardAddr]; omega)
          (by simp only [cardAddr, EEPROM_SIZE]; omega)]
      decide
  · intro hok
    rw [initEEPROM, if_neg (by omega : ¬ e 4 > MAX_CARDS)]

/-- Witness for claim C8: a blank-flash EEPROM (all bytes 0xFF, count byte
255 beyond MAX_CARDS) is wiped, and an all-zero EEPROM (count 0) is kept. -/
theorem initEEPROM_corruption_policy_witness :
    isUIDEmpty (masterBytes (initEEPROM (fun _ => 255))) = true ∧
    countByte (initEEPROM (fun _ => 255)) = 0 ∧
    slotBytes (initEEPROM (fun _ => 255)) 0 = emptyFF ∧
    initEEPROM (fun _ => 0) = (fun _ => 0) :=
  ⟨((initEEPROM_corruption_policy (fun _ => 255) 0).1 (by decide)).1,
   ((initEEPROM_corruption_policy (fun _ => 255) 0).1 (by decide)).2.1,
   ((initEEPROM_corruption_policy (fun _ => 255) 0).1 (by decide)).2.2 (by decide),
   (initEEPROM_corruption_policy (fun _ => 0) 0).2 (by decide)⟩

/-- Claim C9 (confirmed): each of the seven relay-only routes (admin1_relay
through admin6_relay and boss_relay) dispatches to a command that triggers
the relay and carries audio index 0, which is not one of the defined audio
cues (handleCommand at line 259 passes 0 to playAudio, selecting no cue
file: file indices start at 1); every name outside the registered command
vocabulary dispatches to none, the not-found result, with no audio and no
relay action. -/
theorem relay_only_commands_dispatch (s : String) (h : s ∉ commandNames) :
    dispatch "/admin1_relay" = some (0, true) ∧
    dispatch "/admin2_relay" = some (0, true) ∧
    dispatch "/admin3_relay" = some (0, true) ∧
    dispatch "/admin4_relay" = some (0, true) ∧
    dispatch "/admin5_relay" = some (0, true) ∧
    dispatch "/admin6_relay" = some (0, true) ∧
    dispatch "/boss_relay" = some (0, true) ∧
    (0 : Nat) ∉ audioCueIds ∧
    dispatch s = none := by
  refine ⟨by decide, by decide, by decide, by decide, by decide, by decide,
    by decide, by decide, ?_⟩
  rw [dispatch]
  apply lookup_eq_none_of_forall
  intro p hp he
  exact h (List.mem_map.2 ⟨p, hp, he⟩)

/-- Witness for claim C9 with the unregistered name zzz. -/
theorem relay_only_commands_dispatch_witness :
    dispatch "/admin1_relay" = some (0, true) ∧
    dispatch "/admin2_relay" = some (0, true) ∧
    dispatch "/admin3_relay" = some (0, true) ∧
    dispatch "/admin4_relay" = some (0, true) ∧
    dispatch "/admin5_relay" = some (0, true) ∧
    dispatch "/admin6_relay" = some (0, true) ∧
    dispatch "/boss_relay" = some (0, true) ∧
    (0 : Nat) ∉ audioCueIds ∧
    dispatch "zzz" = none :=
  relay_only_commands_dispatch "zzz" (by decide)
